import Mathlib

/-
Verification of the connection-handling engine of the roxy forward proxy
(src/main.rs) against its natural-language specification.

Strings are embedded as `List Char`; the source's `String::from_utf8_lossy`
conversion of the 4096-byte read buffer is modelled as the identity on the
character level (the separators and method literals the code compares against
are all ASCII). I/O actions (dial, socket writes, the bidirectional relay)
are embedded by passing an explicit environment of oracle results and by
recording each attempted action in a trace of events, in source order.
-/

namespace Roxy

/-- Byte/character buffers of the proxy, embedded as lists of characters. -/
abbrev Str := List Char

/-- Abstract embedding of `std::io::Error` values: the engine only ever
constructs one concretely (`ErrorKind::UnexpectedEof` with a message, at
src/main.rs:79-82); all others come from the runtime and stay opaque. -/
inductive IOErr where
  | unexpectedEof (msg : Str)
  | sys (code : Nat)
  deriving DecidableEq, Repr

/-- Embedding of `enum ProxyError` (src/main.rs:10-16). -/
inductive ProxyError where
  | SocketCreateError (e : IOErr)
  | SocketListenError (e : IOErr)
  | ParsingError (msg : Str)
  | SocketWriteError (e : IOErr)
  | SocketReadError (e : IOErr)
  deriving DecidableEq, Repr

/-- I/O actions the engine attempts on behalf of one connection, recorded in
source order: `dial` is `TcpStream::connect` (src/main.rs:47), `writeOrigin`
is `sstream.write_all` (src/main.rs:52-55), `writeClient` is
`cstream.write_all` (src/main.rs:57-60), `relay` is
`tokio::io::copy_bidirectional` (src/main.rs:64). -/
inductive Event where
  | dial (host port : Str)
  | writeOrigin (bytes : Str)
  | writeClient (bytes : Str)
  | relay
  deriving DecidableEq, Repr

/-- Oracle results for the I/O actions a single connection may attempt:
`none` means the corresponding call succeeds, `some e` that it fails with
the I/O error `e`. `relayRes` carries `copy_bidirectional`'s result. -/
structure NetEnv where
  dialRes : Str → Str → Option IOErr
  writeOriginRes : Option IOErr
  writeClientRes : Option IOErr
  relayRes : Except IOErr (Nat × Nat)

/-- Prefix of the buffer before the first occurrence of `"\r\n"`, i.e. the
first element of Rust's `req.split("\r\n")` iterator (src/main.rs:88-91).
When no `"\r\n"` occurs the whole buffer is returned, exactly as
`split("\r\n").next()` yields the whole string then. -/
def firstLine : Str → Str
  | [] => []
  | [c] => [c]
  | c :: d :: rest =>
    if c = '\r' ∧ d = '\n' then [] else c :: firstLine (d :: rest)

/-- Whether the two-character sequence `"\r\n"` occurs in the buffer. -/
def hasCRLF : Str → Bool
  | [] => false
  | [_] => false
  | c :: d :: rest => (c = '\r' ∧ d = '\n' : Bool) || hasCRLF (d :: rest)

/-- Embedding of Rust's `str::split(sep)` for a single-character separator
(used with `' '` at src/main.rs:94-103 and `':'` at src/main.rs:129): splits
on every occurrence, keeping empty segments, so the result is always a
non-empty list of segments. -/
def splitChar (sep : Char) : Str → List Str
  | [] => [[]]
  | c :: rest =>
    if c = sep then [] :: splitChar sep rest
    else
      match splitChar sep rest with
      | [] => [[c]]
      | t :: ts => (c :: t) :: ts

/-- Method token of a request buffer: `head.split(" ").nth(0)`
(src/main.rs:94-97). `split` always yields at least one segment, so the
`ok_or_else` error arm ("Missing HTTP method") of the source is unreachable
and the token is total. -/
def methodTok (buf : Str) : Str :=
  (splitChar ' ' (firstLine buf)).headD []

/-- Target token of a request buffer: `head.split(" ").nth(1)`
(src/main.rs:100-103); `none` when the first line has no second
space-separated segment. -/
def urlTok? (buf : Str) : Option Str :=
  (splitChar ' ' (firstLine buf))[1]?

/-- Result of the `url` crate's `Url::parse` as the engine consumes it:
scheme, optional host (`Url::host_str`, `none` for host-less schemes) and
optional explicit port (`Url::port`, which the crate normalises to `none`
when the port written in the URL equals the scheme default). The parser
itself is an external collaborator; the engine only reads these three
accessors (src/main.rs:108-115). -/
structure UrlInfo where
  scheme : Str
  host : Option Str
  port : Option Nat
  deriving DecidableEq, Repr

/-- Known default port table of `url::Url::port_or_known_default`
(http 80, https 443, ws 80, wss 443, ftp 21; all other schemes none). -/
def knownDefaultPort (scheme : Str) : Option Nat :=
  if scheme = "http".toList then some 80
  else if scheme = "https".toList then some 443
  else if scheme = "ws".toList then some 80
  else if scheme = "wss".toList then some 443
  else if scheme = "ftp".toList then some 21
  else none

/-- Embedding of `url::Url::port_or_known_default` (called at
src/main.rs:114): the explicit port when present, otherwise the scheme's
known default. -/
def portOrKnownDefault (u : UrlInfo) : Option Nat :=
  match u.port with
  | some p => some p
  | none => knownDefaultPort u.scheme

/-- Message strings constructed by the source. The `Bad URL` message
(src/main.rs:109) interpolates the offending target; the crate's own error
text appended after it is elided as opaque. -/
def badUrlMsg (url : Str) : Str := "Bad URL ".toList ++ url

def missingUrlMsg : Str := "Missing URL".toList

def missingHostMsg : Str := "Missing host".toList

def missingPortMsg : Str := "Missing port".toList

def missingConnectPortMsg : Str := "Missing CONNECT port".toList

def clientClosedMsg : Str := "Client closed connection".toList

/-- Error message of the catch-all method arm (src/main.rs:151-156),
`format!("Unknown HTTP method: \x7b\x7d", met)`. -/
def unknownMethodMsg (met : Str) : Str := "Unknown HTTP method: ".toList ++ met

/-- Decimal rendering used for `port.to_string()` (src/main.rs:119 via the
`run` call, the port being a number in the absolute-URL branch). -/
def natToStr (n : Nat) : Str := (Nat.repr n).toList

/-- Absolute-URL target resolution, src/main.rs:108-115: the `Url::parse`
result is taken as input (`none` = the crate rejected the string); a parsed
URL must expose a host and a `port_or_known_default`, each absence being a
distinct `ParsingError`. -/
def resolveAbsolute (pres : Option UrlInfo) (url : Str) :
    Except ProxyError (Str × Nat) :=
  match pres with
  | none => .error (.ParsingError (badUrlMsg url))
  | some info =>
    match info.host with
    | none => .error (.ParsingError missingHostMsg)
    | some h =>
      match portOrKnownDefault info with
      | none => .error (.ParsingError missingPortMsg)
      | some p => .ok (h, p)

/-- CONNECT target resolution, src/main.rs:128-139: `url.split(':')`, first
segment is the host, second the port. The first `parts.next()` never returns
`None` (so the "Missing CONNECT host" arm of the source is unreachable); the
second is `None` exactly when the target has no `':'`. No emptiness check is
performed on either segment. -/
def resolveConnect (url : Str) : Except ProxyError (Str × Str) :=
  let parts := splitChar ':' url
  match parts[1]? with
  | none => .error (.ParsingError missingConnectPortMsg)
  | some port => .ok (parts.headD [], port)

/-- Literal acknowledgment bytes written to the client in CONNECT mode
(src/main.rs:58). -/
def ackBytes : Str := "HTTP/1.1 200 Connection established\r\n\r\n".toList

/-- The fixed method set of the absolute-URL branch (src/main.rs:106),
matched case-sensitively. -/
def isHttpMethod (met : Str) : Bool :=
  met = "GET".toList || met = "POST".toList || met = "PUT".toList ||
  met = "DELETE".toList || met = "HEAD".toList || met = "OPTIONS".toList

/-- Embedding of `ProxyServer::run` (src/main.rs:45-69): dial the origin;
on success, in HTTP mode forward the first request bytes to the origin, in
CONNECT (`https`) mode write the acknowledgment to the client; then run the
bidirectional relay. Besides the source's `Result`, the trace of attempted
I/O actions is returned; the client and origin streams are dropped (closed)
when the function returns. -/
def run (env : NetEnv) (host port : Str) (https : Bool) (first_req : Str) :
    Except ProxyError Unit × List Event :=
  match env.dialRes host port with
  | some e => (.error (.SocketCreateError e), [.dial host port])
  | none =>
    if !https then
      match env.writeOriginRes with
      | some e =>
        (.error (.SocketWriteError e), [.dial host port, .writeOrigin first_req])
      | none =>
        match env.relayRes with
        | .error e =>
          (.error (.SocketReadError e),
            [.dial host port, .writeOrigin first_req, .relay])
        | .ok _ =>
          (.ok (), [.dial host port, .writeOrigin first_req, .relay])
    else
      match env.writeClientRes with
      | some e =>
        (.error (.SocketWriteError e), [.dial host port, .writeClient ackBytes])
      | none =>
        match env.relayRes with
        | .error e =>
          (.error (.SocketReadError e),
            [.dial host port, .writeClient ackBytes, .relay])
        | .ok _ =>
          (.ok (), [.dial host port, .writeClient ackBytes, .relay])

/-- Embedding of `ProxyServer::process` (src/main.rs:71-160). The initial
`stream.read` result is passed in (`.error e` = read failure, `.ok buf` =
the bytes read; a zero-byte read is `.ok []`); `up` is the external
`Url::parse` collaborator. Returns the source's `Result` plus the trace of
attempted I/O actions. -/
def process (env : NetEnv) (up : Str → Option UrlInfo)
    (readRes : Except IOErr Str) : Except ProxyError Unit × List Event :=
  match readRes with
  | .error e => (.error (.SocketReadError e), [])
  | .ok buf =>
    if buf.isEmpty then
      (.error (.SocketReadError (.unexpectedEof clientClosedMsg)), [])
    else
      let met := methodTok buf
      match urlTok? buf with
      | none => (.error (.ParsingError missingUrlMsg), [])
      | some url =>
        if isHttpMethod met then
          match resolveAbsolute (up url) url with
          | .error e => (.error e, [])
          | .ok (host, port) => run env host (natToStr port) false buf
        else if met = "CONNECT".toList then
          match resolveConnect url with
          | .error e => (.error e, [])
          | .ok (host, port) => run env host port true buf
        else
          (.error (.ParsingError (unknownMethodMsg met)), [])

/-- Abstract accepted connections handed out by the listener. -/
abbrev Conn := Nat

/-- Embedding of the accept loop of `ProxyServer::listen`
(src/main.rs:162-179) over a finite script of accept outcomes: a successful
accept spawns processing of the connection (collected in the first
component) and the loop continues; a failed accept is mapped to
`SocketListenError` and propagated by `?`, ending the loop. An exhausted
script models the loop blocked on `accept` with no error. -/
def listenLoop : List (Except IOErr Conn) → List Conn × Option ProxyError
  | [] => ([], none)
  | .error e :: _ => ([], some (.SocketListenError e))
  | .ok c :: rest =>
    let r := listenLoop rest
    (c :: r.1, r.2)

/-- Bytes of every `write_all` attempted on the client stream, in order. -/
def clientWrites (t : List Event) : List Str :=
  t.filterMap fun e =>
    match e with
    | .writeClient b => some b
    | _ => none

/-- Bytes of every `write_all` attempted on the origin stream, in order. -/
def originWrites (t : List Event) : List Str :=
  t.filterMap fun e =>
    match e with
    | .writeOrigin b => some b
    | _ => none

/-- Hosts and ports of every dial attempted, in order. -/
def dials (t : List Event) : List (Str × Str) :=
  t.filterMap fun e =>
    match e with
    | .dial h p => some (h, p)
    | _ => none

/-- Environment in which every I/O action succeeds. -/
def envAllOk : NetEnv :=
  { dialRes := fun _ _ => none
    writeOriginRes := none
    writeClientRes := none
    relayRes := .ok (0, 0) }

/-- Placeholder for the external `Url::parse` collaborator in closed
evaluations that never reach the absolute-URL branch (CONNECT requests do
not consult it). -/
def upNone : Str → Option UrlInfo := fun _ => none

/-- Outcome of parsing plus target resolution, before any I/O: the
(host, port string, CONNECT flag) triple that is handed to `run`, or the
failure. -/
abbrev ResolveOutcome := Except ProxyError (Str × Str × Bool)

/-- State-passing embedding of the parsing and resolution reads of
src/main.rs:85-148: each step returns its result together with the request
buffer as the source leaves it. Every buffer access the source performs
(`from_utf8_lossy` of the read slice, `split`, `nth`, resolution on an
extracted token) is through a shared borrow and performs no write, so each
step hands the buffer on unchanged. -/
def parseResolveSt (up : Str → Option UrlInfo) (buf : Str) :
    ResolveOutcome × Str :=
  let (head, buf) := (firstLine buf, buf)
  let (met, buf) := ((splitChar ' ' head).headD [], buf)
  let (urlOpt, buf) := ((splitChar ' ' head)[1]?, buf)
  match urlOpt with
  | none => (.error (.ParsingError missingUrlMsg), buf)
  | some url =>
    if isHttpMethod met then
      match resolveAbsolute (up url) url with
      | .error e => (.error e, buf)
      | .ok (h, p) => (.ok (h, natToStr p, false), buf)
    else if met = "CONNECT".toList then
      match resolveConnect url with
      | .error e => (.error e, buf)
      | .ok (h, p) => (.ok (h, p, true), buf)
    else
      (.error (.ParsingError (unknownMethodMsg met)), buf)

/-! Helper lemmas. -/

/-- When no `"\r\n"` occurs in the buffer, extracting the first line
returns the whole buffer: Rust's `split` yields the full string as its
first (and only) element. -/
theorem firstLine_eq_self : ∀ (b : Str), hasCRLF b = false → firstLine b = b
  | [], _ => rfl
  | [_], _ => rfl
  | c :: d :: rest, h => by
    rw [hasCRLF] at h
    simp only [Bool.or_eq_false_iff, decide_eq_false_iff_not] at h
    rw [firstLine, if_neg h.1, firstLine_eq_self (d :: rest) h.2]

/-- Splitting a buffer not containing the separator yields the buffer as
the single segment. -/
theorem splitChar_of_not_mem (sep : Char) :
    ∀ (l : Str), sep ∉ l → splitChar sep l = [l]
  | [], _ => rfl
  | c :: rest, h => by
    have hc : ¬(c = sep) := fun e => h (e ▸ List.mem_cons_self c rest)
    have hr : sep ∉ rest := fun m => h (List.mem_cons_of_mem c m)
    rw [splitChar, if_neg hc, splitChar_of_not_mem sep rest hr]

/-- Splitting `h ++ sep :: p` when `h` is separator-free yields `h`
followed by the segments of `p`. -/
theorem splitChar_append (sep : Char) :
    ∀ (h p : Str), sep ∉ h →
      splitChar sep (h ++ sep :: p) = h :: splitChar sep p
  | [], p, _ => by rw [List.nil_append, splitChar, if_pos rfl]
  | c :: rest, p, hmem => by
    have hc : ¬(c = sep) := fun e => hmem (e ▸ List.mem_cons_self c rest)
    have hr : sep ∉ rest := fun m => hmem (List.mem_cons_of_mem c m)
    rw [List.cons_append, splitChar, if_neg hc,
      splitChar_append sep rest p hr]

/-! Claim theorems. -/

/-- C1 counterexample: the buffer `"CONNECT h:443 HTTP/1.1"` contains no
`"\r\n"`, yet processing does not fail with a parse error — it resolves the
target, dials the origin, acknowledges the client and relays. This refutes
the claim that request-line parsing fails ("missing request line") and that
no outbound connection is attempted whenever `"\r\n"` is absent. -/
theorem process_dials_without_crlf :
    hasCRLF "CONNECT h:443 HTTP/1.1".toList = false ∧
    process envAllOk upNone (.ok "CONNECT h:443 HTTP/1.1".toList)
      = (.ok (), [.dial "h".toList "443".toList, .writeClient ackBytes,
          .relay]) :=
  ⟨rfl, rfl⟩

/-- C1 (amended): when the buffer contains no `"\r\n"`, the entire buffer
is treated as the request line (`split("\r\n").next()` yields the whole
string, so the "Missing request head" arm is unreachable) and processing
continues on it; parsing does not fail merely because `"\r\n"` is absent. -/
theorem no_crlf_whole_buffer_is_request_line (b : Str)
    (h : hasCRLF b = false) : firstLine b = b :=
  firstLine_eq_self b h

/-- Witness for the amended C1 theorem at the buffer `"GET x"`. -/
theorem no_crlf_whole_buffer_is_request_line_witness :
    hasCRLF "GET x".toList = false ∧
    firstLine "GET x".toList = "GET x".toList :=
  ⟨rfl, no_crlf_whole_buffer_is_request_line "GET x".toList rfl⟩

/-- C2 counterexample: with an accept script whose first accept fails and
whose second would yield connection 7, the loop hands out no connection at
all and ends with `SocketListenError` — the failed accept is propagated by
`?` (src/main.rs:165-169), so the listener does not continue accepting. -/
theorem accept_failure_stops_loop :
    listenLoop [.error (.sys 0), .ok 7]
      = ([], some (.SocketListenError (.sys 0))) ∧
    7 ∉ (listenLoop [.error (.sys 0), .ok 7]).1 :=
  ⟨rfl, by decide⟩

/-- C2 (amended): a failure of a single `accept()` call terminates the
accept loop: `listen` returns the error as `SocketListenError` and no
subsequent connection is accepted or processed. A successful accept, by
contrast, spawns processing of that connection and the loop continues. -/
theorem accept_failure_terminates_listen :
    (∀ (e : IOErr) (rest : List (Except IOErr Conn)),
      listenLoop (.error e :: rest) = ([], some (.SocketListenError e))) ∧
    (∀ (c : Conn) (rest : List (Except IOErr Conn)),
      listenLoop (.ok c :: rest)
        = (c :: (listenLoop rest).1, (listenLoop rest).2)) :=
  ⟨fun _ _ => rfl, fun _ _ => rfl⟩

/-- C3 counterexample: CONNECT targets with an empty host or an empty port
segment resolve successfully (no emptiness check is performed), the dial is
attempted with the empty string, and for a target with two colons the port
is the segment between the first and the second colon, not everything after
the first colon. -/
theorem connect_resolution_accepts_empty_segments :
    resolveConnect ":443".toList = .ok ([], "443".toList) ∧
    resolveConnect "host:".toList = .ok ("host".toList, []) ∧
    (process envAllOk upNone (.ok "CONNECT h: HTTP/1.1".toList)).2
      = [.dial "h".toList [], .writeClient ackBytes, .relay] ∧
    resolveConnect "a:b:c".toList = .ok ("a".toList, "b".toList) :=
  ⟨rfl, rfl, rfl, rfl⟩

/-- C3 (amended): CONNECT target resolution splits the target on `':'`;
the host is the segment before the first `':'` and the port is the
following segment (up to the next `':'`, or the rest of the string). For
every target `host ++ ":" ++ port` whose two sides are colon-free the pair
is returned unchanged — including when either side is empty, no emptiness
check being performed; for every target with no `':'` at all, resolution
fails with a parse failure and no dial is attempted. -/
theorem connect_resolution_splits_on_colon :
    (∀ h p : Str, ':' ∉ h → ':' ∉ p →
      resolveConnect (h ++ ':' :: p) = .ok (h, p)) ∧
    (∀ url : Str, ':' ∉ url →
      resolveConnect url = .error (.ParsingError missingConnectPortMsg)) := by
  constructor
  · intro h p hh hp
    rw [resolveConnect, splitChar_append ':' h p hh,
      splitChar_of_not_mem ':' p hp]
    rfl
  · intro url hu
    rw [resolveConnect, splitChar_of_not_mem ':' url hu]
    rfl

/-- Witness for the amended C3 theorem: `"example.org:443"` resolves to
(`example.org`, `443`), `":443"` resolves with the empty host accepted, and
the colon-free target `"example.org"` fails. -/
theorem connect_resolution_splits_on_colon_witness :
    resolveConnect ("example.org".toList ++ ':' :: "443".toList)
      = .ok ("example.org".toList, "443".toList) ∧
    resolveConnect ([] ++ ':' :: "443".toList) = .ok ([], "443".toList) ∧
    resolveConnect "example.org".toList
      = .error (.ParsingError missingConnectPortMsg) :=
  ⟨connect_resolution_splits_on_colon.1 _ _ (by decide) (by decide),
   connect_resolution_splits_on_colon.1 _ _ (by decide) (by decide),
   connect_resolution_splits_on_colon.2 _ (by decide)⟩

/-- C5: in CONNECT mode, when the dial fails the connection ends with
`SocketCreateError` and the trace holds the dial attempt only — not a
single write to the client is attempted; when the dial succeeds, exactly
one client write is attempted, it carries precisely the literal
acknowledgment bytes, and it comes directly after the successful dial. -/
theorem connect_ack_only_after_dial (env : NetEnv) (h p buf : Str) :
    (∀ e, env.dialRes h p = some e →
      run env h p true buf = (.error (.SocketCreateError e), [.dial h p])) ∧
    (env.dialRes h p = none →
      clientWrites (run env h p true buf).2 = [ackBytes] ∧
      ∃ rest, (run env h p true buf).2
        = .dial h p :: .writeClient ackBytes :: rest) := by
  constructor
  · intro e he
    rw [run, he]
  · intro hd
    rw [run, hd]
    cases hw : env.writeClientRes with
    | some e => exact ⟨rfl, [], rfl⟩
    | none =>
      cases hr : env.relayRes with
      | error e => exact ⟨rfl, [Event.relay], rfl⟩
      | ok v => exact ⟨rfl, [Event.relay], rfl⟩

/-- Witness for C5 in the all-success environment. -/
theorem connect_ack_only_after_dial_witness :
    clientWrites (run envAllOk "h".toList "443".toList true []).2
      = [ackBytes] :=
  ((connect_ack_only_after_dial envAllOk "h".toList "443".toList []).2
    rfl).1

/-- C6: absolute-URL target resolution returns the parsed host together
with the explicit port when the URL carries one, the well-known default 80
for a portless `http` URL and 443 for a portless `https` URL; a parsed URL
exposing no host fails with the "Missing host" parse failure, never a
default host. -/
theorem absolute_resolution_ports (info : UrlInfo) (url : Str) :
    (∀ h, info.host = some h →
      (∀ p, info.port = some p →
        resolveAbsolute (some info) url = .ok (h, p)) ∧
      (info.port = none → info.scheme = "http".toList →
        resolveAbsolute (some info) url = .ok (h, 80)) ∧
      (info.port = none → info.scheme = "https".toList →
        resolveAbsolute (some info) url = .ok (h, 443))) ∧
    (info.host = none →
      resolveAbsolute (some info) url
        = .error (.ParsingError missingHostMsg)) := by
  constructor
  · intro h hh
    refine ⟨fun p hp => ?_, fun hp hs => ?_, fun hp hs => ?_⟩
    · rw [resolveAbsolute, hh, portOrKnownDefault, hp]
    · rw [resolveAbsolute, hh, portOrKnownDefault, hp, knownDefaultPort,
        if_pos hs]
    · have hs1 : ¬(info.scheme = "http".toList) := by
        rw [hs]; decide
      rw [resolveAbsolute, hh, portOrKnownDefault, hp, knownDefaultPort,
        if_neg hs1, if_pos hs]
  · intro hh
    rw [resolveAbsolute, hh]

/-- Witness for C6: an explicit port 8080 is returned as-is, and a portless
`https` URL gets 443. -/
theorem absolute_resolution_ports_witness :
    resolveAbsolute
        (some ⟨"http".toList, some "example.org".toList, some 8080⟩)
        "u".toList
      = .ok ("example.org".toList, 8080) ∧
    resolveAbsolute
        (some ⟨"https".toList, some "example.org".toList, none⟩)
        "u".toList
      = .ok ("example.org".toList, 443) :=
  ⟨((absolute_resolution_ports _ _).1 _ rfl).1 _ rfl,
   ((absolute_resolution_ports _ _).1 _ rfl).2.2 rfl rfl⟩

/-- C7: for a non-CONNECT request whose method is in the fixed set, whose
target resolves and whose dial succeeds, the trace begins with the dial
followed immediately by a single origin write carrying exactly the raw
initial-read buffer — the very bytes the parser inspected — and anything
after it is at most the relay. -/
theorem http_forwards_raw_bytes (env : NetEnv) (up : Str → Option UrlInfo)
    (buf u : Str) (info : UrlInfo) (h : Str) (pt : Nat)
    (hne : buf.isEmpty = false)
    (hmet : isHttpMethod (methodTok buf) = true)
    (hurl : urlTok? buf = some u)
    (hup : up u = some info)
    (hhost : info.host = some h)
    (hport : portOrKnownDefault info = some pt)
    (hdial : env.dialRes h (natToStr pt) = none) :
    ∃ rest, (process env up (.ok buf)).2
        = .dial h (natToStr pt) :: .writeOrigin buf :: rest ∧
      (rest = [] ∨ rest = [Event.relay]) := by
  rw [process]
  simp only [hne, Bool.false_eq_true, if_false, hurl, hmet, if_true,
    resolveAbsolute, hup, hhost, hport]
  rw [run, hdial]
  cases hw : env.writeOriginRes with
  | some e => exact ⟨[], rfl, Or.inl rfl⟩
  | none =>
    cases hr : env.relayRes with
    | error e => exact ⟨[Event.relay], rfl, Or.inr rfl⟩
    | ok v => exact ⟨[Event.relay], rfl, Or.inr rfl⟩

/-- Concrete `Url::parse` result for the single URL of the C7 witness:
`http://h/` parses to scheme `http`, host `h`, no explicit port. -/
def upExample : Str → Option UrlInfo := fun s =>
  if s = "http://h/".toList then
    some ⟨"http".toList, some "h".toList, none⟩
  else none

/-- Witness for C7 on the request `"GET http://h/ HTTP/1.1\r\n\r\n"` in the
all-success environment. -/
theorem http_forwards_raw_bytes_witness :
    ∃ rest,
      (process envAllOk upExample
          (.ok "GET http://h/ HTTP/1.1\r\n\r\n".toList)).2
        = .dial "h".toList (natToStr 80)
            :: .writeOrigin "GET http://h/ HTTP/1.1\r\n\r\n".toList :: rest ∧
      (rest = [] ∨ rest = [Event.relay]) :=
  http_forwards_raw_bytes envAllOk upExample
    "GET http://h/ HTTP/1.1\r\n\r\n".toList "http://h/".toList
    ⟨"http".toList, some "h".toList, none⟩ "h".toList 80
    rfl rfl rfl rfl rfl rfl rfl

/-- C8: a request whose method token is not — by case-sensitive string
comparison — one of the seven recognised methods always ends in a
`ParsingError` with an empty trace (no dial, no write, no relay); whenever
the request line does carry a target token, the failure is specifically the
"Unknown HTTP method" one from the catch-all match arm. -/
theorem unknown_method_rejected (env : NetEnv)
    (up : Str → Option UrlInfo) (buf : Str)
    (hne : buf.isEmpty = false)
    (hmet : methodTok buf ∉
      ["GET".toList, "POST".toList, "PUT".toList, "DELETE".toList,
       "HEAD".toList, "OPTIONS".toList, "CONNECT".toList]) :
    (∃ m, process env up (.ok buf) = (.error (.ParsingError m), [])) ∧
    (∀ u, urlTok? buf = some u →
      process env up (.ok buf)
        = (.error (.ParsingError (unknownMethodMsg (methodTok buf))), [])) := by
  simp only [List.mem_cons, List.not_mem_nil, or_false, not_or] at hmet
  obtain ⟨hG, hP, hU, hD, hH, hO, hC⟩ := hmet
  have h1 : isHttpMethod (methodTok buf) = false := by
    simp only [isHttpMethod, Bool.or_eq_false_iff, decide_eq_false_iff_not]
    exact ⟨⟨⟨⟨⟨hG, hP⟩, hU⟩, hD⟩, hH⟩, hO⟩
  constructor
  · cases hu : urlTok? buf with
    | none =>
      exact ⟨missingUrlMsg, by rw [process]; simp only [hne,
        Bool.false_eq_true, if_false, hu]⟩
    | some u =>
      refine ⟨unknownMethodMsg (methodTok buf), ?_⟩
      rw [process]
      simp only [hne, Bool.false_eq_true, if_false, hu, h1, if_neg hC]
  · intro u hu
    rw [process]
    simp only [hne, Bool.false_eq_true, if_false, hu, h1, if_neg hC]

/-- Witness for C8 at the request `"FOO / HTTP/1.1\r\n\r\n"` of the spec's
end-to-end scenario 4. -/
theorem unknown_method_rejected_witness :
    process envAllOk upNone (.ok "FOO / HTTP/1.1\r\n\r\n".toList)
      = (.error (.ParsingError (unknownMethodMsg "FOO".toList)), []) :=
  (unknown_method_rejected envAllOk upNone
    "FOO / HTTP/1.1\r\n\r\n".toList rfl (by decide)).2
    "/".toList rfl

/-- C9: parsing and target resolution are pure reads — the state-passing
embedding hands the request buffer back unchanged, and running it a second
time on the buffer the first run left behind produces the identical
outcome and buffer. -/
theorem parse_resolution_pure (up : Str → Option UrlInfo) (buf : Str) :
    (parseResolveSt up buf).2 = buf ∧
    parseResolveSt up (parseResolveSt up buf).2 = parseResolveSt up buf := by
  have h2 : (parseResolveSt up buf).2 = buf := by
    rw [parseResolveSt]
    cases hu : (splitChar ' ' (firstLine buf))[1]? with
    | none => rfl
    | some url =>
      dsimp only
      split
      · cases ha : resolveAbsolute (up url) url with
        | error e => rfl
        | ok v => cases v; rfl
      · split
        · cases hc : resolveConnect url with
          | error e => rfl
          | ok v => cases v; rfl
        · rfl
  exact ⟨h2, by rw [h2]⟩

/-- C10: a zero-byte initial read (the client closed without sending
anything) makes processing fail with the `SocketReadError` built from
"Client closed connection" before anything else happens: the trace is
empty, so no parse outcome is acted on, no dial is attempted and no byte is
written to the client. -/
theorem empty_read_fails_early (env : NetEnv)
    (up : Str → Option UrlInfo) :
    process env up (.ok [])
      = (.error (.SocketReadError (.unexpectedEof clientClosedMsg)), []) :=
  rfl

end Roxy

